import Mathlib

/-!
Shallow embedding of the genmesh repository sources
(`src/cube.rs`, `src/cylinder.rs`, `src/texture_coord.rs`).

Modelling conventions:
* `f32` scalars are modelled as exact rationals (`ℚ`); the float constants
  `1./4.`, `1./3.`, `UV_GAP = 0.01` are taken at their exact decimal values.
* The transcendental pieces (`f32::cos`, `f32::sin` and the `f32` value of
  `PI`) are abstracted as parameters bundled in a `Trig` record; no claim
  needs their numeric values.
* Rust `panic!` / failed `assert!` is modelled by `Option`/`none` on the
  functions that can reach one; functions with no panicking path are total.
  `debug_assert!` is compiled out in release builds and is modelled as a
  comment only.
* `usize` is modelled as `Nat`, `isize` as `Int`.  The cylinder field
  `sub_h` is an `isize` in the source but both constructors only ever store
  positive values into it, so it is modelled as `Nat` and cast to `Int`
  where the source compares `isize` values.
-/

/-- Two dimensional `f32` vector (`mint::Vector2<f32>`). -/
structure Vec2 where
  x : ℚ
  y : ℚ

/-- Three dimensional `f32` vector (`Position` / `Normal`). -/
structure Vec3 where
  x : ℚ
  y : ℚ
  z : ℚ

/-- The `Vertex` record: position, normal and texture coordinate. -/
structure Vertex where
  pos : Vec3
  normal : Vec3
  uv : Vec2

/-- `Quad<T>` with fields `x, y, z, w` as in genmesh. -/
structure Quad (α : Type) where
  x : α
  y : α
  z : α
  w : α

/-- `Triangle<T>` with fields `x, y, z` as in genmesh. -/
structure Triangle (α : Type) where
  x : α
  y : α
  z : α

/-- `Polygon<T>`: either a triangle or a quad. -/
inductive Polygon (α : Type) where
  | PolyTri (t : Triangle α)
  | PolyQuad (q : Quad α)

/-- `MapVertex` for quads: rebuild the quad applying `f` to every slot. -/
def Quad.mapVertex (f : α → β) (q : Quad α) : Quad β :=
  ⟨f q.x, f q.y, f q.z, f q.w⟩

/-- `MapVertex` for triangles. -/
def Triangle.mapVertex (f : α → β) (t : Triangle α) : Triangle β :=
  ⟨f t.x, f t.y, f t.z⟩

/-- `MapVertex` for polygons. -/
def Polygon.mapVertex (f : α → β) : Polygon α → Polygon β
  | .PolyTri t => .PolyTri (t.mapVertex f)
  | .PolyQuad q => .PolyQuad (q.mapVertex f)

/-- The list of payloads of a quad, in slot order. -/
def Quad.verts (q : Quad α) : List α := [q.x, q.y, q.z, q.w]

/-- The list of payloads of a polygon, in slot order. -/
def Polygon.verts : Polygon α → List α
  | .PolyTri t => [t.x, t.y, t.z]
  | .PolyQuad q => q.verts

/-- Collect a quad of optional values into an optional quad; `none` when any
slot is `none`.  Used to compare the direct-iteration path (which can panic
inside `face_indexed`) with the indexed path slot by slot. -/
def quadJoin : Quad (Option α) → Option (Quad α)
  | ⟨some a, some b, some c, some d⟩ => some ⟨a, b, c, d⟩
  | _ => none

/-- `UVRect` from texture_coord.rs. -/
structure UVRect where
  offset : Vec2
  scale : Vec2

/-- `UVRect::coord`: `offset + scale ⊙ uv` componentwise. -/
def UVRect.coord (r : UVRect) (uv : Vec2) : Vec2 :=
  ⟨r.offset.x + r.scale.x * uv.x, r.offset.y + r.scale.y * uv.y⟩

/-- `UVCircle` from texture_coord.rs. -/
structure UVCircle where
  offset : Vec2
  radius : ℚ

/-- Abstraction of the `f32` trigonometric primitives and the `f32` value of
`PI`; the claims never need their numeric values. -/
structure Trig where
  cosf : ℚ → ℚ
  sinf : ℚ → ℚ
  pi : ℚ

/-- A concrete instantiation of `Trig`, used to evaluate theorems at
concrete inputs. -/
def zeroTrig : Trig := ⟨fun _ => 0, fun _ => 0, 0⟩

/-- `UVCircle::coord`: `offset + radius · (cos u, sin u)`. -/
def UVCircle.coord (t : Trig) (c : UVCircle) (u : ℚ) : Vec2 :=
  ⟨c.offset.x + t.cosf u * c.radius, c.offset.y + t.sinf u * c.radius⟩

/-- The `Cube` generator state: the iteration cursor `range: Range<usize>`,
constructed as `0..6`. -/
structure Cube where
  rangeStart : Nat
  rangeEnd : Nat

/-- `Cube::new()`: cursor `0..6`. -/
def Cube.new : Cube := ⟨0, 6⟩

/-- `Cube::vert`: per-slot corner position via the three range-membership
tables of the source (Rust `0...5` is the inclusive range `0..=5`). -/
def Cube.vert (idx : Nat) : Vec3 :=
  let x : ℚ := if idx ≤ 5 ∨ (14 ≤ idx ∧ idx ≤ 17) ∨ (20 ≤ idx ∧ idx ≤ 21) then 1 else -1
  let y : ℚ := if (2 ≤ idx ∧ idx ≤ 9) ∨ (17 ≤ idx ∧ idx ≤ 18) ∨ idx = 20 ∨ idx = 23 then 1 else -1
  let z : ℚ := if idx = 0 ∨ (3 ≤ idx ∧ idx ≤ 4) ∨ (7 ≤ idx ∧ idx ≤ 8) ∨
      (11 ≤ idx ∧ idx ≤ 12) ∨ (15 ≤ idx ∧ idx ≤ 19) then 1 else -1
  ⟨x, y, z⟩

/-- The offset selected by the match inside `Cube::uv`; `none` models the
catch-all arm `_ => return [0., 0.]` (an early return of a sentinel; the
`panic!` in that arm is commented out in the source). -/
def Cube.uvOffset (idx : Nat) : Option Vec2 :=
  let width : ℚ := 1/4
  let height : ℚ := 1/3
  if idx ≤ 3 then some ⟨height, 0⟩
  else if idx ≤ 7 then some ⟨height, width⟩
  else if idx ≤ 11 then some ⟨height, width * 2⟩
  else if idx ≤ 15 then some ⟨height, width * 3⟩
  else if idx ≤ 19 then some ⟨height * 2, width⟩
  else if idx ≤ 23 then some ⟨0, width⟩
  else none

/-- `Cube::uv`: place the slot in its face rectangle; out-of-range slots
take the early `return [0., 0.]`. -/
def Cube.uv (idx : Nat) : Vec2 :=
  match Cube.uvOffset idx with
  | none => ⟨0, 0⟩
  | some off =>
    let rect : UVRect := ⟨off, ⟨1/4, 1/3⟩⟩
    match idx % 4 with
    | 0 => rect.coord ⟨0, 0⟩
    | 1 => rect.coord ⟨1, 0⟩
    | 2 => rect.coord ⟨1, 1⟩
    | 3 => rect.coord ⟨0, 1⟩
    | _ => ⟨0, 0⟩    -- the source marks this arm unreachable (idx % 4 < 4)

/-- `Cube::face_indexed`: normal and vertex-index quad of a face; the
catch-all arm panics in the source (`none` here). -/
def Cube.face_indexed (idx : Nat) : Option (Vec3 × Quad Nat) :=
  if idx = 0 then some (⟨1, 0, 0⟩, ⟨0, 1, 2, 3⟩)
  else if idx = 1 then some (⟨0, 1, 0⟩, ⟨4, 5, 6, 7⟩)
  else if idx = 2 then some (⟨-1, 0, 0⟩, ⟨8, 9, 10, 11⟩)
  else if idx = 3 then some (⟨0, -1, 0⟩, ⟨12, 13, 14, 15⟩)
  else if idx = 4 then some (⟨0, 0, 1⟩, ⟨16, 17, 18, 19⟩)
  else if idx = 5 then some (⟨0, 0, -1⟩, ⟨20, 21, 22, 23⟩)
  else none

/-- `Cube::face`: resolve a face index into a quad of full vertices. -/
def Cube.face (idx : Nat) : Option (Quad Vertex) :=
  (Cube.face_indexed idx).map fun p =>
    p.2.mapVertex fun i => ⟨Cube.vert i, p.1, Cube.uv i⟩

/-- `Iterator::next` for `Cube`: emit `face` at the cursor and advance. -/
def Cube.next (c : Cube) : Option (Quad Vertex × Cube) :=
  if c.rangeStart < c.rangeEnd then
    (Cube.face c.rangeStart).map fun q => (q, ⟨c.rangeStart + 1, c.rangeEnd⟩)
  else none

/-- `Cube::shared_vertex`: face `idx/4`, corner `idx%4`; `none` models the
panic reached through `face_indexed` when `idx/4 ≥ 6`. -/
def Cube.shared_vertex (idx : Nat) : Option Vertex :=
  (Cube.face_indexed (idx / 4)).map fun p =>
    let vid := match idx % 4 with
      | 0 => p.2.x
      | 1 => p.2.y
      | 2 => p.2.z
      | 3 => p.2.w
      | _ => p.2.w    -- unreachable in the source (idx % 4 < 4)
    ⟨Cube.vert vid, p.1, Cube.uv idx⟩

/-- `Cube::shared_vertex_count`. -/
def Cube.shared_vertex_count : Nat := 24

/-- `Cube::indexed_polygon`: no bounds check in the source. -/
def Cube.indexed_polygon (idx : Nat) : Quad Nat :=
  ⟨idx * 4 + 0, idx * 4 + 1, idx * 4 + 2, idx * 4 + 3⟩

/-- `Cube::indexed_polygon_count`. -/
def Cube.indexed_polygon_count : Nat := 6

/-- `UV_GAP = 0.01` (modelled at its exact decimal value). -/
def uvGap : ℚ := 1/100

/-- `UV_TOP_CENTER`. -/
def uvTopCenter : Vec2 := ⟨1/4 - uvGap, 1/4 - uvGap⟩

/-- `UV_BOTTOM_CENTER`. -/
def uvBottomCenter : Vec2 := ⟨1/4 - uvGap, 3/4 + uvGap⟩

/-- `UV_RADIUS`. -/
def uvRadius : ℚ := 1/4 - uvGap

/-- The `Cylinder` generator state: cursor `idx`, radial subdivisions
`sub_u`, height subdivisions `sub_h`. -/
structure Cylinder where
  idx : Nat
  sub_u : Nat
  sub_h : Nat

/-- `Cylinder::new(u)`: `assert!(u > 1)`; the failed assert (panic) is
modelled by `none`. -/
def Cylinder.new (u : Nat) : Option Cylinder :=
  if 1 < u then some ⟨0, u, 1⟩ else none

/-- `Cylinder::subdivide(u, h)`: `assert!(u > 1 && h > 0)`. -/
def Cylinder.subdivide (u h : Nat) : Option Cylinder :=
  if 1 < u ∧ 0 < h then some ⟨0, u, h⟩ else none

/-- `Cylinder::vert`: the shared per-ring vertex formula.  The source
computes `h_per` from `u` (not from `h`); this is reproduced verbatim.
The two `debug_assert!` lines of the source are compiled out in release
builds and are not modelled. -/
def Cylinder.vert (t : Trig) (c : Cylinder) (u : Nat) (h : Int) : Vertex :=
  let u_per : ℚ := (u : ℚ) / (c.sub_u : ℚ)
  let h_per : ℚ := (u : ℚ) / (c.sub_u : ℚ)
  let a : ℚ := u_per * t.pi * 2
  let n : Vec3 := ⟨t.cosf a, t.sinf a, 0⟩
  let res : Int × Vec3 × Vec2 :=
    if h < 0 then
      -- bottom
      (0, ⟨0, 0, -1⟩, UVCircle.coord t ⟨uvBottomCenter, uvRadius⟩ a)
    else if (c.sub_h : Int) < h then
      -- top
      ((c.sub_h : Int), ⟨0, 0, 1⟩, UVCircle.coord t ⟨uvTopCenter, uvRadius⟩ a)
    else
      -- side walls
      (h, n, UVRect.coord ⟨⟨0, 1/2 + uvGap⟩, ⟨1, 1/2 - uvGap⟩⟩ ⟨u_per, h_per⟩)
  let z : ℚ := ((res.1 : ℚ) / (c.sub_h : ℚ)) * 2 - 1
  ⟨⟨n.x, n.y, z⟩, res.2.1, res.2.2⟩

/-- `Cylinder::shared_vertex_count`. -/
def Cylinder.shared_vertex_count (c : Cylinder) : Nat :=
  (3 + c.sub_h) * c.sub_u + 2

/-- `Cylinder::shared_vertex`: pole special cases, then the ring formula. -/
def Cylinder.shared_vertex (t : Trig) (c : Cylinder) (idx : Nat) : Vertex :=
  if idx = 0 then
    ⟨⟨0, 0, -1⟩, ⟨0, 0, -1⟩, uvBottomCenter⟩
  else if idx = c.shared_vertex_count - 1 then
    ⟨⟨0, 0, 1⟩, ⟨0, 0, 1⟩, uvTopCenter⟩
  else
    -- skip the bottom center
    let i := idx - 1
    let u := i % c.sub_u
    let h : Int := ((i / c.sub_u : Nat) : Int) - 1
    c.vert t u h

/-- `Cylinder::indexed_polygon_count`. -/
def Cylinder.indexed_polygon_count (c : Cylinder) : Nat :=
  (2 + c.sub_h) * c.sub_u

/-- Body of `Cylinder::indexed_polygon` with the wrapped column `u1` kept
as an explicit argument (the source binds `let u1 = (idx + 1) % self.sub_u`
at the top of the function and uses it in all three arms). -/
def Cylinder.indexed_polygon_with (c : Cylinder) (idx u1 : Nat) : Polygon Nat :=
  let u := idx % c.sub_u
  let h : Int := ((idx / c.sub_u : Nat) : Int) - 1
  let base := 1 + idx - u
  if h < 0 then
    Polygon.PolyTri ⟨base + u, 0, base + u1⟩
  else if h = (c.sub_h : Int) then
    -- select the next vertex loop over, which has the correct normals
    Polygon.PolyTri ⟨(base + c.sub_u) + u, (base + c.sub_u) + u1,
      c.shared_vertex_count - 1⟩
  else
    Polygon.PolyQuad ⟨base + u, base + u1, base + u1 + c.sub_u,
      base + u + c.sub_u⟩

/-- `Cylinder::indexed_polygon`: no bounds check in the source. -/
def Cylinder.indexed_polygon (c : Cylinder) (idx : Nat) : Polygon Nat :=
  c.indexed_polygon_with idx ((idx + 1) % c.sub_u)

/-- `Iterator::next` for `Cylinder`: resolve the polygon at the cursor
through `indexed_polygon` and `shared_vertex`, then advance. -/
def Cylinder.next (t : Trig) (c : Cylinder) : Option (Polygon Vertex × Cylinder) :=
  if c.idx < c.indexed_polygon_count then
    some ((c.indexed_polygon c.idx).mapVertex (c.shared_vertex t),
      ⟨c.idx + 1, c.sub_u, c.sub_h⟩)
  else none

/-! Theorems -/

/-- C5: for every cylinder constructed with valid parameters `u > 1` and
`h > 0`, `shared_vertex_count()` equals `(3+h)*u + 2` and
`indexed_polygon_count()` equals `(2+h)*u`; in particular `Cylinder::new(4)`
has `shared_vertex_count() = 18` and `indexed_polygon_count() = 12`. -/
theorem cylinder_counts (u h : Nat) (hu : 1 < u) (hh : 0 < h) :
    (Cylinder.subdivide u h).map Cylinder.shared_vertex_count = some ((3 + h) * u + 2) ∧
    (Cylinder.subdivide u h).map Cylinder.indexed_polygon_count = some ((2 + h) * u) ∧
    (Cylinder.new 4).map Cylinder.shared_vertex_count = some 18 ∧
    (Cylinder.new 4).map Cylinder.indexed_polygon_count = some 12 := by
  refine ⟨?_, ?_, rfl, rfl⟩ <;>
    simp [Cylinder.subdivide, Cylinder.shared_vertex_count,
      Cylinder.indexed_polygon_count, hu, hh]

/-- Witness for C5 at `u = 4`, `h = 2`. -/
theorem cylinder_counts_inst :
    (Cylinder.subdivide 4 2).map Cylinder.shared_vertex_count = some 22 ∧
    (Cylinder.subdivide 4 2).map Cylinder.indexed_polygon_count = some 16 ∧
    (Cylinder.new 4).map Cylinder.shared_vertex_count = some 18 ∧
    (Cylinder.new 4).map Cylinder.indexed_polygon_count = some 12 := by
  simpa using cylinder_counts 4 2 (by decide) (by decide)

/-- C6: for every cylinder with valid parameters, `shared_vertex(0)` has
position `(0,0,-1)` and normal `(0,0,-1)`, and
`shared_vertex(shared_vertex_count()-1)` has position `(0,0,1)` and normal
`(0,0,1)`, independent of `u`, `h` (and of the trig primitives). -/
theorem cylinder_poles (t : Trig) (c : Cylinder) (_hu : 1 < c.sub_u) (_hh : 0 < c.sub_h) :
    (c.shared_vertex t 0).pos = ⟨0, 0, -1⟩ ∧
    (c.shared_vertex t 0).normal = ⟨0, 0, -1⟩ ∧
    (c.shared_vertex t (c.shared_vertex_count - 1)).pos = ⟨0, 0, 1⟩ ∧
    (c.shared_vertex t (c.shared_vertex_count - 1)).normal = ⟨0, 0, 1⟩ := by
  have hne : c.shared_vertex_count - 1 ≠ 0 := by
    have h1 : c.sub_u ≤ (3 + c.sub_h) * c.sub_u :=
      Nat.le_mul_of_pos_left _ (by omega)
    unfold Cylinder.shared_vertex_count
    omega
  unfold Cylinder.shared_vertex
  rw [if_pos rfl, if_neg hne, if_pos rfl]
  exact ⟨rfl, rfl, rfl, rfl⟩

/-- Witness for C6 at `Cylinder::new(4)` (so count - 1 = 17). -/
theorem cylinder_poles_inst :
    ((Cylinder.mk 0 4 1).shared_vertex zeroTrig 0).pos = ⟨0, 0, -1⟩ ∧
    ((Cylinder.mk 0 4 1).shared_vertex zeroTrig 0).normal = ⟨0, 0, -1⟩ ∧
    ((Cylinder.mk 0 4 1).shared_vertex zeroTrig 17).pos = ⟨0, 0, 1⟩ ∧
    ((Cylinder.mk 0 4 1).shared_vertex zeroTrig 17).normal = ⟨0, 0, 1⟩ := by
  simpa using cylinder_poles zeroTrig (Cylinder.mk 0 4 1) (by decide) (by decide)

/-- C7: for every polygon index whose column `idx % sub_u` equals
`sub_u - 1`, the wrapped column `u1 = (idx + 1) % sub_u` used by
`indexed_polygon` equals `0`, so in every ring the polygon references the
column-0 vertices of the ring. -/
theorem seam_wraps_to_zero (c : Cylinder) (idx : Nat) (hu : 0 < c.sub_u)
    (hcol : idx % c.sub_u = c.sub_u - 1) :
    (idx + 1) % c.sub_u = 0 ∧
    c.indexed_polygon idx = c.indexed_polygon_with idx 0 := by
  have h0 : (idx + 1) % c.sub_u = 0 := by
    by_cases hsu : c.sub_u = 1
    · simp [hsu, Nat.mod_one]
    · have h2 : 1 < c.sub_u := by omega
      rw [Nat.add_mod, hcol, Nat.mod_eq_of_lt h2,
        Nat.sub_add_cancel (Nat.one_le_of_lt h2), Nat.mod_self]
  exact ⟨h0, by rw [Cylinder.indexed_polygon, h0]⟩

/-- Witness for C7 at `sub_u = 4`, `idx = 7` (a side-band seam polygon). -/
theorem seam_wraps_to_zero_inst :
    (7 + 1) % (Cylinder.mk 0 4 1).sub_u = 0 ∧
    (Cylinder.mk 0 4 1).indexed_polygon 7 = (Cylinder.mk 0 4 1).indexed_polygon_with 7 0 := by
  simpa using seam_wraps_to_zero (Cylinder.mk 0 4 1) 7 (by decide) (by decide)

/-- C9: `Cylinder::new(u)` panics (models as `none`) whenever `u ≤ 1`, and
`Cylinder::subdivide(u, h)` panics whenever `u ≤ 1` or `h = 0`; for valid
parameters both return a generator with cursor `0` (`new` defaulting
`sub_h` to `1`). -/
theorem cylinder_ctor_guards (u h : Nat) :
    (u ≤ 1 → Cylinder.new u = none) ∧
    (u ≤ 1 ∨ h = 0 → Cylinder.subdivide u h = none) ∧
    (1 < u → Cylinder.new u = some ⟨0, u, 1⟩) ∧
    (1 < u → 0 < h → Cylinder.subdivide u h = some ⟨0, u, h⟩) := by
  refine ⟨fun h1 => ?_, fun h2 => ?_, fun h3 => ?_, fun h4 h5 => ?_⟩ <;>
    simp [Cylinder.new, Cylinder.subdivide] <;> omega

/-- Witness for C9 at `u = 1`, `h = 0` and at `u = 4`, `h = 2`. -/
theorem cylinder_ctor_guards_inst :
    Cylinder.new 1 = none ∧
    Cylinder.subdivide 4 0 = none ∧
    Cylinder.new 4 = some ⟨0, 4, 1⟩ ∧
    Cylinder.subdivide 4 2 = some ⟨0, 4, 2⟩ := by
  exact ⟨(cylinder_ctor_guards 1 0).1 (by decide),
    (cylinder_ctor_guards 4 0).2.1 (Or.inr rfl),
    (cylinder_ctor_guards 4 0).2.2.1 (by decide),
    (cylinder_ctor_guards 4 2).2.2.2 (by decide) (by decide)⟩

/-- C4: for every cylinder side-wall vertex with column `u` and ring
`h ∈ [0, sub_h]`, the uv coordinate is the side-wall atlas rectangle
(`offset (0, 0.5+UV_GAP)`, `scale (1, 0.5-UV_GAP)`) evaluated at the
parameter pair `(u/sub_u, u/sub_u)`: the height parameter repeats the
radial fraction `u/sub_u` instead of `h/sub_h`. -/
theorem side_wall_uv_reuses_u (t : Trig) (c : Cylinder) (u : Nat) (h : Int)
    (h0 : 0 ≤ h) (h1 : h ≤ (c.sub_h : Int)) :
    (c.vert t u h).uv =
      UVRect.coord ⟨⟨0, 1/2 + uvGap⟩, ⟨1, 1/2 - uvGap⟩⟩
        ⟨(u : ℚ) / (c.sub_u : ℚ), (u : ℚ) / (c.sub_u : ℚ)⟩ := by
  simp only [Cylinder.vert]
  rw [if_neg (by omega : ¬ h < 0), if_neg (by omega : ¬ (c.sub_h : Int) < h)]

/-- Witness for C4 at `sub_u = 4`, `u = 1`, `h = 0`. -/
theorem side_wall_uv_reuses_u_inst :
    ((Cylinder.mk 0 4 1).vert zeroTrig 1 0).uv =
      UVRect.coord ⟨⟨0, 1/2 + uvGap⟩, ⟨1, 1/2 - uvGap⟩⟩ ⟨1/4, 1/4⟩ := by
  have := side_wall_uv_reuses_u zeroTrig (Cylinder.mk 0 4 1) 1 0
    (by decide) (by decide)
  simpa using this

/-- C8: for every cube face index `f < 6`, each of the 4 corner positions
of face `f` (slots `4f..4f+3`) has every coordinate equal to `+1` or `-1`,
and the 4 positions of the face are pairwise distinct. -/
theorem cube_face_corners (f : Nat) (hf : f < 6) :
    (∀ k, k < 4 →
      ((Cube.vert (4*f+k)).x = 1 ∨ (Cube.vert (4*f+k)).x = -1) ∧
      ((Cube.vert (4*f+k)).y = 1 ∨ (Cube.vert (4*f+k)).y = -1) ∧
      ((Cube.vert (4*f+k)).z = 1 ∨ (Cube.vert (4*f+k)).z = -1)) ∧
    (Cube.vert (4*f) ≠ Cube.vert (4*f+1) ∧ Cube.vert (4*f) ≠ Cube.vert (4*f+2) ∧
     Cube.vert (4*f) ≠ Cube.vert (4*f+3) ∧ Cube.vert (4*f+1) ≠ Cube.vert (4*f+2) ∧
     Cube.vert (4*f+1) ≠ Cube.vert (4*f+3) ∧ Cube.vert (4*f+2) ≠ Cube.vert (4*f+3)) := by
  interval_cases f <;>
    refine ⟨fun k hk => ?_, ?_⟩ <;>
    first
      | (interval_cases k <;> norm_num [Cube.vert])
      | norm_num [Cube.vert, Vec3.mk.injEq]

/-- Witness for C8 at face `0`. -/
theorem cube_face_corners_inst :
    ((Cube.vert 0).x = 1 ∨ (Cube.vert 0).x = -1) ∧
    Cube.vert 0 ≠ Cube.vert 1 := by
  exact ⟨((cube_face_corners 0 (by decide)).1 0 (by decide)).1,
    by simpa using (cube_face_corners 0 (by decide)).2.1⟩

/-- The open cell spanned by the 4 uv corners of cube face `f`:
`uv(4f)` is the corner at local `(0,0)` and `uv(4f+2)` the corner at local
`(1,1)`, so the cell is the open box between them. -/
def Cube.uvCellContains (f : Nat) (p : Vec2) : Prop :=
  (Cube.uv (4*f)).x < p.x ∧ p.x < (Cube.uv (4*f+2)).x ∧
  (Cube.uv (4*f)).y < p.y ∧ p.y < (Cube.uv (4*f+2)).y

/-- C2: evaluation of `Cube::uv` at the failing input.  The atlas point
`(5/12, 3/10)` lies strictly inside the uv cells of face 0 and of face 1
simultaneously, so the 6 cells do not tile a 4-by-3 grid without overlap;
the corner values also show that no `UV_GAP` inset is applied (face 0
starts exactly at `y = 0`) and that the x offsets are multiples of `1/3`
while the x scale is `1/4`. -/
theorem cube_uv_cells_overlap :
    Cube.uvCellContains 0 ⟨5/12, 3/10⟩ ∧ Cube.uvCellContains 1 ⟨5/12, 3/10⟩ ∧
    Cube.uv 0 = ⟨1/3, 0⟩ ∧ Cube.uv 2 = ⟨1/3 + 1/4, 1/3⟩ ∧
    Cube.uv 4 = ⟨1/3, 1/4⟩ ∧ Cube.uv 6 = ⟨1/3 + 1/4, 1/4 + 1/3⟩ := by
  norm_num [Cube.uvCellContains, Cube.uv, Cube.uvOffset, UVRect.coord, Vec2.mk.injEq]

/-- Helper: `face_indexed` hits the panicking arm for every index `≥ 6`. -/
theorem cubeFaceIndexed_none (n : Nat) (h : 6 ≤ n) : Cube.face_indexed n = none := by
  unfold Cube.face_indexed
  rw [if_neg (by omega), if_neg (by omega), if_neg (by omega),
    if_neg (by omega), if_neg (by omega), if_neg (by omega)]

/-- Helper: the uv offset match falls through to the sentinel arm for
every index `≥ 24`. -/
theorem cubeUvOffset_none (n : Nat) (h : 24 ≤ n) : Cube.uvOffset n = none := by
  unfold Cube.uvOffset
  rw [if_neg (by omega), if_neg (by omega), if_neg (by omega),
    if_neg (by omega), if_neg (by omega), if_neg (by omega)]

/-- Helper: `Cube::shared_vertex` succeeds on every in-range index. -/
theorem cubeSharedVertex_isSome (i : Nat) (h : i < 24) :
    (Cube.shared_vertex i).isSome = true := by
  interval_cases i <;> rfl

/-- C3 counterexample: out-of-range queries do not all panic.
`Cube::indexed_polygon(6)` (count is 6) returns a quad of out-of-range
indices, `Cube::uv(24)` returns the sentinel `[0,0]` (the panic in that
arm is commented out in the source), and on a `Cylinder::new(4)` (polygon
count 12) `indexed_polygon(12)` returns a quad referencing out-of-range
vertex indices. -/
theorem oob_returns_values :
    Cube.indexed_polygon 6 = ⟨24, 25, 26, 27⟩ ∧
    Cube.uv 24 = ⟨0, 0⟩ ∧
    (Cylinder.mk 0 4 1).indexed_polygon 12 = Polygon.PolyQuad ⟨13, 14, 18, 17⟩ :=
  ⟨rfl, rfl, rfl⟩

/-- C3 amended: only `Cube::shared_vertex` panics on out-of-range input
(via the internal face index); `Cube::uv` returns the sentinel `[0,0]`,
`Cube::indexed_polygon` and `Cylinder::indexed_polygon` perform no bounds
check and return polygons built from the computed (out-of-range) indices,
and `Cylinder::shared_vertex` never panics in release builds. -/
theorem oob_behavior :
    (∀ idx, 24 ≤ idx → Cube.shared_vertex idx = none) ∧
    (∀ idx, idx < 24 → (Cube.shared_vertex idx).isSome = true) ∧
    (∀ idx, Cube.indexed_polygon idx = ⟨idx * 4 + 0, idx * 4 + 1, idx * 4 + 2, idx * 4 + 3⟩) ∧
    (∀ idx, 24 ≤ idx → Cube.uv idx = ⟨0, 0⟩) ∧
    (∀ (c : Cylinder) idx, 0 < c.sub_u → c.indexed_polygon_count ≤ idx →
      ∃ q, c.indexed_polygon idx = Polygon.PolyQuad q) := by
  refine ⟨fun idx h => ?_, cubeSharedVertex_isSome, fun idx => rfl, fun idx h => ?_, ?_⟩
  · unfold Cube.shared_vertex
    rw [cubeFaceIndexed_none _ (by omega)]
    rfl
  · unfold Cube.uv
    rw [cubeUvOffset_none _ h]
  · intro c idx hsu hcnt
    have hq : 2 + c.sub_h ≤ idx / c.sub_u := by
      refine (Nat.le_div_iff_mul_le hsu).mpr ?_
      simpa [Cylinder.indexed_polygon_count] using hcnt
    simp only [Cylinder.indexed_polygon, Cylinder.indexed_polygon_with]
    rw [if_neg (by omega), if_neg (by omega)]
    exact ⟨_, rfl⟩

/-- Witness for C3 amended at concrete indices. -/
theorem oob_behavior_inst :
    Cube.shared_vertex 24 = none ∧
    (Cube.shared_vertex 5).isSome = true ∧
    Cube.indexed_polygon 7 = ⟨28, 29, 30, 31⟩ ∧
    Cube.uv 30 = ⟨0, 0⟩ ∧
    (∃ q, (Cylinder.mk 0 4 1).indexed_polygon 12 = Polygon.PolyQuad q) := by
  refine ⟨oob_behavior.1 24 (by decide), oob_behavior.2.1 5 (by decide),
    by simpa using oob_behavior.2.2.1 7, oob_behavior.2.2.2.1 30 (by decide),
    oob_behavior.2.2.2.2 (Cylinder.mk 0 4 1) 12 (by decide) (by decide)⟩

/-- C1: for both generators, every polygon produced by direct iteration is
identical, field by field in every vertex, to the polygon obtained by
resolving `indexed_polygon(idx)` through `shared_vertex`.  For the cube
this compares `face` (the iteration body) slot by slot with the indexed
path; for the cylinder the iteration body is exactly that composition. -/
theorem iter_matches_indexed :
    (∀ idx, idx < 6 →
      Cube.face idx = quadJoin ((Cube.indexed_polygon idx).mapVertex Cube.shared_vertex)) ∧
    (∀ s e, s < e →
      Cube.next ⟨s, e⟩ = (Cube.face s).map fun q => (q, ⟨s + 1, e⟩)) ∧
    (∀ (t : Trig) (c : Cylinder), c.idx < c.indexed_polygon_count →
      Cylinder.next t c =
        some ((c.indexed_polygon c.idx).mapVertex (c.shared_vertex t),
          ⟨c.idx + 1, c.sub_u, c.sub_h⟩)) := by
  refine ⟨?_, ?_, ?_⟩
  · intro idx h
    interval_cases idx <;> rfl
  · intro s e h
    simp [Cube.next, h]
  · intro t c h
    simp [Cylinder.next, h]

/-- Witness for C1 at cube face 2 and at a fresh `Cylinder::new(4)`. -/
theorem iter_matches_indexed_inst :
    Cube.face 2 = quadJoin ((Cube.indexed_polygon 2).mapVertex Cube.shared_vertex) ∧
    Cube.next ⟨2, 6⟩ = (Cube.face 2).map (fun q => (q, ⟨3, 6⟩)) ∧
    Cylinder.next zeroTrig (Cylinder.mk 0 4 1) =
      some (((Cylinder.mk 0 4 1).indexed_polygon 0).mapVertex
        ((Cylinder.mk 0 4 1).shared_vertex zeroTrig), Cylinder.mk 1 4 1) :=
  ⟨iter_matches_indexed.1 2 (by decide),
   iter_matches_indexed.2.1 2 6 (by decide),
   iter_matches_indexed.2.2 zeroTrig (Cylinder.mk 0 4 1) (by decide)⟩

/-- C10: for every generator with valid parameters and every in-range
polygon index, every vertex index of the returned polygon lies below
`shared_vertex_count`, so resolving it through `shared_vertex` never
reaches an out-of-range branch (for the cube, `shared_vertex` succeeds on
each such index). -/
theorem polygon_indices_in_range :
    (∀ idx, idx < Cube.indexed_polygon_count →
      ∀ i ∈ (Cube.indexed_polygon idx).verts,
        i < Cube.shared_vertex_count ∧ (Cube.shared_vertex i).isSome = true) ∧
    (∀ (c : Cylinder), 1 < c.sub_u → 0 < c.sub_h →
      ∀ idx, idx < c.indexed_polygon_count →
        ∀ i ∈ (c.indexed_polygon idx).verts, i < c.shared_vertex_count) := by
  constructor
  · intro idx hidx i hi
    have hb : i < 24 := by
      simp only [Cube.indexed_polygon, Quad.verts, List.mem_cons,
        List.not_mem_nil, or_false] at hi
      unfold Cube.indexed_polygon_count at hidx
      omega
    exact ⟨hb, cubeSharedVertex_isSome i hb⟩
  · intro c hu hh idx hidx i hi
    have hsu : 0 < c.sub_u := by omega
    have hdm := Nat.div_add_mod idx c.sub_u
    have hmod : idx % c.sub_u < c.sub_u := Nat.mod_lt _ hsu
    have hm1 : (idx + 1) % c.sub_u < c.sub_u := Nat.mod_lt _ hsu
    have hqlt : idx / c.sub_u < 2 + c.sub_h := by
      refine (Nat.div_lt_iff_lt_mul hsu).mpr ?_
      simpa [Cylinder.indexed_polygon_count] using hidx
    have e1 : (3 + c.sub_h) * c.sub_u = c.sub_u * c.sub_h + 3 * c.sub_u := by ring
    simp only [Cylinder.indexed_polygon, Cylinder.indexed_polygon_with,
      Cylinder.shared_vertex_count] at hi ⊢
    split at hi
    · rename_i hcond
      have hq0 : idx / c.sub_u = 0 := by
        by_contra hne
        have h1 : 1 ≤ idx / c.sub_u := Nat.one_le_iff_ne_zero.mpr hne
        have h2 : (1 : ℤ) ≤ ((idx / c.sub_u : Nat) : ℤ) := by exact_mod_cast h1
        omega
      have hidxlt : idx < c.sub_u := by
        have h3 := Nat.div_add_mod idx c.sub_u
        rw [hq0, Nat.mul_zero, Nat.zero_add] at h3
        omega
      have hmeq : idx % c.sub_u = idx := Nat.mod_eq_of_lt hidxlt
      simp only [Polygon.verts, List.mem_cons, List.not_mem_nil, or_false] at hi
      rcases hi with rfl | rfl | rfl <;> omega
    · rename_i hc1
      split at hi
      · rename_i hc2
        have hq1 : idx / c.sub_u = c.sub_h + 1 := by
          have h2 : ((idx / c.sub_u : Nat) : ℤ) = ((c.sub_h + 1 : Nat) : ℤ) := by
            push_cast
            omega
          exact_mod_cast h2
        have hidxeq : idx = c.sub_u * (c.sub_h + 1) + idx % c.sub_u := by
          conv_lhs => rw [← Nat.div_add_mod idx c.sub_u]
          rw [hq1]
        have e2 : c.sub_u * (c.sub_h + 1) = c.sub_u * c.sub_h + c.sub_u := by ring
        simp only [Polygon.verts, List.mem_cons, List.not_mem_nil, or_false] at hi
        rcases hi with rfl | rfl | rfl <;> omega
      · rename_i hc2
        have hq2 : idx / c.sub_u ≠ c.sub_h + 1 := by
          intro hEq
          apply hc2
          rw [hEq]
          push_cast
          ring
        have hqle : idx / c.sub_u ≤ c.sub_h := by omega
        have hle : c.sub_u * (idx / c.sub_u) ≤ c.sub_u * c.sub_h :=
          Nat.mul_le_mul_left _ hqle
        simp only [Polygon.verts, Quad.verts, List.mem_cons,
          List.not_mem_nil, or_false] at hi
        rcases hi with rfl | rfl | rfl | rfl <;> omega

/-- Witness for C10 at cube polygon 2 and a cylinder with `u = 4`,
`h = 2`, polygon 5 (a side quad). -/
theorem polygon_indices_in_range_inst :
    (∀ i ∈ (Cube.indexed_polygon 2).verts,
      i < Cube.shared_vertex_count ∧ (Cube.shared_vertex i).isSome = true) ∧
    (∀ i ∈ ((Cylinder.mk 0 4 2).indexed_polygon 5).verts,
      i < (Cylinder.mk 0 4 2).shared_vertex_count) :=
  ⟨polygon_indices_in_range.1 2 (by decide),
   polygon_indices_in_range.2 (Cylinder.mk 0 4 2) (by decide) (by decide) 5 (by decide)⟩
